import Mathlib

/-!
Shallow embedding of the code snippets in the notes-on-composing-software
repository, and theorems settling the frozen claims about them.

The snippets modelled here come from:
* the reduce article notes (compose, pipe, add1, double, summingReducer);
* the higher-order-functions notes (reduce, filter, censor);
* the functors notes (Identity);
* the functional-mixins notes (flying, quacking, createDuck, withLogging,
  addConfig, createConfig).

JavaScript numbers are modelled as `Int`, arrays as `List`, objects with
optional fields as structures of `Option`-valued fields, and mutable closure
state as explicit state passing.
-/

namespace NOCS

/-! ## Reduce notes: compose and pipe

Source:
`const compose = (...fns) => x => fns.reduceRight((v, f) => f(v), x);`
`const pipe = (...fns) => x => fns.reduce((v, f) => f(v), x);`
The variadic argument list `...fns` is modelled as a `List` of functions.
`Array.prototype.reduce` with accumulator update `acc = f(acc)` is a left
fold; `reduceRight` is the corresponding right fold. -/

def compose {α : Type} (fns : List (α → α)) (x : α) : α :=
  fns.foldr (fun f v => f v) x

def pipe {α : Type} (fns : List (α → α)) (x : α) : α :=
  fns.foldl (fun v f => f v) x

/-- Source: `const add1 = n => n + 1;` -/
def add1 (n : Int) : Int := n + 1

/-- Source: `const double = n => n * 2;` -/
def double (n : Int) : Int := n * 2

/-- Source: `const add1ThenDoubleWithCompose = compose(double, add1);` -/
def add1ThenDoubleWithCompose : Int → Int := compose [double, add1]

/-- Source: `const add1ThenDouble = pipe(add1, double);` -/
def add1ThenDouble : Int → Int := pipe [add1, double]

/-- Source: `const doubleThenAdd1 = pipe(double, add1);` -/
def doubleThenAdd1 : Int → Int := pipe [double, add1]

theorem pipe_nil {α : Type} (x : α) : pipe ([] : List (α → α)) x = x := rfl

theorem pipe_cons {α : Type} (f : α → α) (fns : List (α → α)) (x : α) :
    pipe (f :: fns) x = pipe fns (f x) := rfl

theorem pipe_concat {α : Type} (fns : List (α → α)) (f : α → α) (x : α) :
    pipe (fns ++ [f]) x = f (pipe fns x) := by
  induction fns generalizing x with
  | nil => rfl
  | cons g gs ih => simpa [pipe_cons] using ih (g x)

theorem compose_nil {α : Type} (x : α) : compose ([] : List (α → α)) x = x := rfl

theorem compose_cons {α : Type} (f : α → α) (fns : List (α → α)) (x : α) :
    compose (f :: fns) x = f (compose fns x) := rfl

/-- C1. The generic composition helpers have the standard fold semantics:
`pipe` applies its functions left to right (empty list is the identity and
the last function is applied last), `compose` applies them right to left
(the first function is applied last); hence `compose(f, g)(x) = f(g(x)) =
pipe(g, f)(x)`, and the worked examples evaluate as the notes say:
`add1ThenDoubleWithCompose(2) = 6`, `add1ThenDouble(2) = 6`,
`doubleThenAdd1(2) = 5`. -/
theorem pipe_compose_fold_semantics :
    (∀ {α : Type} (x : α), pipe ([] : List (α → α)) x = x)
    ∧ (∀ {α : Type} (fns : List (α → α)) (f : α → α) (x : α),
        pipe (fns ++ [f]) x = f (pipe fns x))
    ∧ (∀ {α : Type} (x : α), compose ([] : List (α → α)) x = x)
    ∧ (∀ {α : Type} (f : α → α) (fns : List (α → α)) (x : α),
        compose (f :: fns) x = f (compose fns x))
    ∧ (∀ (f g : Int → Int) (x : Int),
        compose [f, g] x = f (g x) ∧ pipe [g, f] x = f (g x))
    ∧ add1ThenDoubleWithCompose 2 = 6
    ∧ add1ThenDouble 2 = 6
    ∧ doubleThenAdd1 2 = 5 := by
  refine ⟨fun x => rfl, fun fns f x => pipe_concat fns f x, fun x => rfl,
    fun f fns x => rfl, fun f g x => ⟨rfl, rfl⟩, rfl, rfl, rfl⟩

/-! ## Functional mixins: flying, quacking, createDuck

Source of `flying`:
```
const flying = o => {
  let isFlying = false;
  return Object.assign({}, o, {
    fly () { isFlying = true; return this; },
    isFlying: () => isFlying,
    land () { isFlying = false; return this; }
  });
};
```
The closure variable `isFlying` is mutable state observed by the returned
methods; it is modelled as an explicit `Bool` state threaded through the
methods, initialised to `false` by `flying`. -/

/-- Initial value of the closure variable `isFlying` set by `flying`. -/
def flyingInit : Bool := false

/-- The `fly` method: sets `isFlying = true` (and returns `this`). -/
def flyingFly (_isFlying : Bool) : Bool := true

/-- The `land` method: sets `isFlying = false` (and returns `this`). -/
def flyingLand (_isFlying : Bool) : Bool := false

/-- The `isFlying` method: reads the closure variable. -/
def flyingIsFlying (isFlying : Bool) : Bool := isFlying

/-- Objects built by the mixin snippets: each field is `some`-valued exactly
when the corresponding mixin has been applied. `flyState` is the `flying`
closure state, `quackText` the string captured by `quacking`. -/
structure MixObj where
  flyState : Option Bool
  quackText : Option String

/-- The empty object literal `{}`. -/
def emptyObj : MixObj := ⟨none, none⟩

/-- The `flying` mixin as an object transformer: extends its argument with
the flying methods backed by a fresh closure state initialised to `false`. -/
def flying (o : MixObj) : MixObj := { o with flyState := some flyingInit }

/-- Source: `const quacking = quack => o => Object.assign({}, o, { quack: () => quack });` -/
def quacking (quack : String) (o : MixObj) : MixObj :=
  { o with quackText := some quack }

/-- Source: `const createDuck = quack => quacking(quack)(flying({}));` -/
def createDuck (quack : String) : MixObj := quacking quack (flying emptyObj)

/-- Calling `fly()` on a duck object mutates its flying closure state. -/
def duckFly (o : MixObj) : MixObj := { o with flyState := o.flyState.map flyingFly }

/-- Calling `isFlying()` on a duck object reads its flying closure state. -/
def duckIsFlying (o : MixObj) : Option Bool := o.flyState.map flyingIsFlying

/-- Calling `quack()` on a duck object returns the captured string. -/
def duckQuack (o : MixObj) : Option String := o.quackText

/-- C2 counterexample. For `bird = flying({})`, the value of
`bird.isFlying()` before `bird.fly()` differs from its value after:
the source itself logs `false` then `true`. -/
theorem bird_isFlying_changes_after_fly :
    flyingIsFlying flyingInit ≠ flyingIsFlying (flyingFly flyingInit) := by
  decide

/-- C2 amended. The `flying` mixin does keep persistent closure state: for
`bird = flying({})`, `bird.isFlying()` returns `false` before `bird.fly()`
is called and `true` after, so the `fly` call changes state that the later
`isFlying` call observes (and `land` resets it). -/
theorem bird_flying_state_is_persistent :
    flyingIsFlying flyingInit = false
    ∧ flyingIsFlying (flyingFly flyingInit) = true
    ∧ flyingIsFlying (flyingLand (flyingFly flyingInit)) = false := by
  decide

/-- C4 counterexample. `createDuck` is a source-defined operation that
constructs its result by applying one source-defined component,
`quacking(quack)`, to the output of another, `flying({})`: the object
`createDuck('Quack!')` carries features of both mixins, the flying closure
state and the captured quack string, and `duck.fly().quack()` returns
`'Quack!'` as the source logs. -/
theorem createDuck_composes_two_mixins :
    createDuck "Quack!" = quacking "Quack!" (flying emptyObj)
    ∧ (createDuck "Quack!").flyState = some false
    ∧ (createDuck "Quack!").quackText = some "Quack!"
    ∧ duckQuack (duckFly (createDuck "Quack!")) = some "Quack!" := by
  refine ⟨rfl, rfl, rfl, rfl⟩

/-- C4 amended. Components defined in the source do compose at runtime in
the toy mixin examples: `createDuck quack` applies `quacking quack` to the
output of `flying {}`, and the resulting object carries features of both
mixins — its flying state answers `isFlying()` (false before `fly()`, true
after) and its `quack()` returns the captured string. -/
theorem createDuck_composition_behaviour :
    duckIsFlying (createDuck "Quack!") = some false
    ∧ duckIsFlying (duckFly (createDuck "Quack!")) = some true
    ∧ duckQuack (createDuck "Quack!") = some "Quack!" := by
  refine ⟨rfl, rfl, rfl⟩

/-! ## Functional mixins: the configuration manager

Source of `addConfig`:
```
const addConfig = config => o => Object.assign({}, o, {
  get (key) {
    return config[key] == undefined ?
      this.log(`Missing config key: ${ key }`) :
      config[key]
    ;
  }
});
```
`withConfig` pipes `withLogging(logger)` then `addConfig(initialConfig)`
over the argument object, and `createConfig` applies the result to `{}`.
A configuration object is modelled as an association list; `config[key]`
is modelled as lookup returning `Option String`; `this.log(text)` calls
`logger(text)` and returns `undefined`, so `get` is modelled as returning
the `Option`-valued result together with the list of messages sent to the
logger during the call. -/

/-- Property lookup `config[key]` on a plain-object configuration. -/
def lookupConfig (config : List (String × String)) (key : String) :
    Option String :=
  (config.find? (fun p => p.1 = key)).map Prod.snd

/-- The `get` method of the object built by `createConfig`: returns the
config value and the messages logged by the call. On a present key it
returns the value and logs nothing; on an absent key it calls
`this.log('Missing config key: <key>')` and returns `undefined`. -/
def configGet (config : List (String × String)) (key : String) :
    Option String × List String :=
  match lookupConfig config key with
  | none => (none, ["Missing config key: " ++ key])
  | some v => (some v, [])

/-- Source: `const initialConfig = { host: 'localhost' };` -/
def initialConfig : List (String × String) := [("host", "localhost")]

/-- C3 counterexample. `config.get` on the absent key `'notThere'` of
`createConfig({initialConfig, logger})` does take a distinguished branch
and does produce a `'Missing config key'` report, while the present key
`'host'` takes the other branch and yields `'localhost'` — exactly what
the source logs. -/
theorem configGet_reports_missing_key :
    (configGet initialConfig "notThere").2 = ["Missing config key: notThere"]
    ∧ (configGet initialConfig "notThere").2 ≠ []
    ∧ configGet initialConfig "host" = (some "localhost", []) := by
  refine ⟨rfl, by decide, rfl⟩

/-- C3 amended. The configuration manager does handle a failure condition:
the `get` method of the object returned by `createConfig` branches on
whether the key is present in the configuration — a present key returns
its value with nothing logged (`config.get('host') = 'localhost'`), and an
absent key returns `undefined` and reports
`'Missing config key: <key>'` through the logging mixin
(`config.get('notThere')` logs `'Missing config key: notThere'`). -/
theorem configGet_branches_on_presence :
    (∀ (config : List (String × String)) (key : String),
      configGet config key =
        match lookupConfig config key with
        | none => (none, ["Missing config key: " ++ key])
        | some v => (some v, []))
    ∧ configGet initialConfig "host" = (some "localhost", [])
    ∧ configGet initialConfig "notThere" =
        (none, ["Missing config key: notThere"]) := by
  refine ⟨fun config key => rfl, rfl, rfl⟩

/-! ## Functors notes: the Identity functor

Source: `const Identity = value => ({ map: fn => Identity(fn(value)) });` -/

structure Identity (α : Type) where
  value : α

/-- The `map` method of `Identity`: `fn => Identity(fn(value))`. -/
def Identity.map {α β : Type} (i : Identity α) (fn : α → β) : Identity β :=
  Identity.mk (fn i.value)

/-- C5. The Identity functor satisfies the functor laws: mapping the
identity function preserves the held value (identity law), and mapping a
composition equals mapping in two steps (composition law); at `v = 2`,
`f = n => n + 1`, `g = n => n * 2`, both sides of the composition law
hold 5. -/
theorem identity_functor_laws :
    (∀ {α : Type} (v : α), (Identity.mk v).map (fun x => x) = Identity.mk v)
    ∧ (∀ {α β γ : Type} (v : α) (f : β → γ) (g : α → β),
        (Identity.mk v).map (fun x => f (g x)) =
          ((Identity.mk v).map g).map f)
    ∧ ((Identity.mk (2 : Int)).map
        (fun x => (fun n => n + 1) ((fun n => n * 2) x))).value = 5
    ∧ (((Identity.mk (2 : Int)).map (fun n => n * 2)).map
        (fun n => n + 1)).value = 5 := by
  refine ⟨fun v => rfl, fun v f g => rfl, rfl, rfl⟩

/-! ## Higher-order-function notes: reduce, filter, censor

Source:
```
const reduce = (reducer, initial, arr) => {
  let acc = initial;
  for (let i = 0, length = arr.length; i < length; i++) {
    acc = reducer(acc, arr[i]);
  }
  return acc;
};
const filter = (fn, arr) => reduce(
  (acc, curr) => fn(curr) ? acc.concat([curr]) : acc, [], arr
);
const censor = words => filter(word => word.length !== 4, words);
```
The accumulating `for` loop is a left fold over the array. The first-order
`censor` pushes each word of length other than 4 onto `filtered` in order,
again a left fold. -/

def reduce {α β : Type} (reducer : β → α → β) (initial : β) (arr : List α) :
    β :=
  arr.foldl reducer initial

def filter {α : Type} (fn : α → Bool) (arr : List α) : List α :=
  reduce (fun acc curr => if fn curr then acc ++ [curr] else acc) [] arr

/-- The reduce article's `filter`, built on `Array.prototype.reduce`:
`(fn, arr) => arr.reduce((newArr, item) => fn(item) ? newArr.concat([item]) : newArr, [])`. -/
def filterViaArrayReduce {α : Type} (fn : α → Bool) (arr : List α) :
    List α :=
  arr.foldl (fun newArr item => if fn item then newArr ++ [item] else newArr)
    []

/-- The higher-order `censor`, written with `filter`. -/
def censor (words : List String) : List String :=
  filter (fun word => word.length != 4) words

/-- The first-order loop-based `censor`: pushes each word whose length is
not 4 onto `filtered`. -/
def censorLoop (words : List String) : List String :=
  words.foldl
    (fun filtered word =>
      if word.length != 4 then filtered ++ [word] else filtered)
    []

theorem foldl_push_filter {α : Type} (p : α → Bool) (l acc : List α) :
    l.foldl (fun acc x => if p x then acc ++ [x] else acc) acc =
      acc ++ l.filter p := by
  induction l generalizing acc with
  | nil => simp
  | cons x xs ih =>
    simp only [List.foldl_cons, List.filter_cons]
    cases hp : p x <;> simp [hp, ih]

/-- C6. The reduce-based implementation refines the first-order one: for
every list of words, `censor` defined through the reduce-based `filter`
returns exactly the words whose length is not 4, in their original order,
and agrees with the loop-based `censor` (and with the reduce article's
`filter`); on `['oops', 'gasp', 'shout', 'sun']` both return
`['shout', 'sun']`. -/
theorem censor_refinement :
    (∀ words : List String,
      censor words = words.filter (fun word => word.length != 4))
    ∧ (∀ words : List String, censor words = censorLoop words)
    ∧ (∀ {α : Type} (fn : α → Bool) (arr : List α),
        filter fn arr = filterViaArrayReduce fn arr)
    ∧ censor ["oops", "gasp", "shout", "sun"] = ["shout", "sun"]
    ∧ censorLoop ["oops", "gasp", "shout", "sun"] = ["shout", "sun"] := by
  have hfilter : ∀ words : List String,
      censor words = words.filter (fun word => word.length != 4) := by
    intro words
    simpa [censor, filter, reduce] using
      foldl_push_filter (fun word : String => word.length != 4) words []
  have hloop : ∀ words : List String, censorLoop words = censor words := by
    intro words
    rw [hfilter words]
    simpa [censorLoop] using
      foldl_push_filter (fun word : String => word.length != 4) words []
  refine ⟨hfilter, fun words => (hloop words).symm, fun fn arr => rfl, ?_, ?_⟩
  · rw [hfilter]; decide
  · rw [hloop, hfilter]; decide

/-! ## Reduce notes: the Redux-style summing reducer

Source:
```
const ADD_VALUE = 'ADD_VALUE';
const summingReducer = (state = 0, action = {}) => {
  const { type, payload } = action;
  switch (type) {
    case ADD_VALUE:
      return state + payload.value;
    default: return state;
  }
};
```
An action is an object with optional `type` and `payload` fields; a call
with no arguments uses the defaults `state = 0` and `action = {}`, whose
destructured `type` is `undefined` and hence hits the `default` branch.
Accessing `payload.value` when `payload` is `undefined` would throw, so
the reducer is modelled as returning `Option Int`, with `none` for the
throw. -/

structure Payload where
  value : Int

structure SAction where
  type : Option String
  payload : Option Payload

def ADD_VALUE : String := "ADD_VALUE"

def summingReducer (state : Int) (action : SAction) : Option Int :=
  match action.type with
  | some t =>
    if t = ADD_VALUE then action.payload.map (fun p => state + p.value)
    else some state
  | none => some state

/-- The default argument `action = {}`: no `type`, no `payload`. -/
def emptyAction : SAction := ⟨none, none⟩

/-- Source: the array of three `ADD_VALUE` actions with value 1. -/
def actions : List SAction :=
  [⟨some "ADD_VALUE", some ⟨1⟩⟩, ⟨some "ADD_VALUE", some ⟨1⟩⟩,
    ⟨some "ADD_VALUE", some ⟨1⟩⟩]

/-- C7. `summingReducer` obeys the Redux reducer rules: with its default
arguments (state 0, empty action) it returns the initial state 0; any
action whose type is not `'ADD_VALUE'` leaves the state unchanged; an
`'ADD_VALUE'` action with payload value `v` returns `state + v`; and
reducing the three `ADD_VALUE` actions with value 1 from initial state 0
yields 3. -/
theorem summingReducer_redux_rules :
    summingReducer 0 emptyAction = some 0
    ∧ (∀ (s : Int) (a : SAction),
        a.type ≠ some ADD_VALUE → summingReducer s a = some s)
    ∧ (∀ s v : Int,
        summingReducer s ⟨some ADD_VALUE, some ⟨v⟩⟩ = some (s + v))
    ∧ actions.foldlM summingReducer 0 = some 3 := by
  refine ⟨rfl, ?_, fun s v => by simp [summingReducer], by decide⟩
  intro s a h
  rcases a with ⟨t, p⟩
  cases t with
  | none => rfl
  | some t =>
    have ht : t ≠ ADD_VALUE := by
      intro hEq
      exact h (by simp [hEq])
    simp [summingReducer, ht]

/-- Witness for C7: the unchanged-state rule applied to the concrete
non-`ADD_VALUE` action `{ type: 'NOT_HANDLED' }` at state 7. -/
theorem summingReducer_redux_rules_witness :
    summingReducer 7 ⟨some "NOT_HANDLED", none⟩ = some 7 :=
  summingReducer_redux_rules.2.1 7 ⟨some "NOT_HANDLED", none⟩ (by decide)

end NOCS
